import Mathlib

/-!
Verification of `scripts/generate_icons.py`: a one-shot utility that renders a
chat-bubble app icon at a fixed set of pixel resolutions and writes an icon-set
manifest (`Contents.json`).  A Python float is an IEEE binary64 value,
represented here by its exact rational value; every float operation rounds its
exact result to 53 significant bits, to nearest, ties to even (`fl`, with
unbounded exponent — this agrees with binary64 wherever the script's values
are normal, i.e. everywhere on its value range).  Python's `int(...)`
truncation toward zero is `pythonInt`.  The size-table products
`base_size * scale` are all exactly representable (integers and `83.5 * 2`),
so their float multiplication is exact and needs no rounding step.
-/

attribute [local semireducible] Rat.ofScientific Rat.mul Rat.inv Rat.add Rat.sub

namespace GenerateIcons

/-- Python `int(q)` on a rational: truncation toward zero. -/
def pythonInt (q : ℚ) : ℤ :=
if 0 ≤ q then ⌊q⌋ else -⌊-q⌋

/-- Fuelled binary logarithm (structural recursion so the kernel can
evaluate it); with fuel at least `n` it is the floor of log2. -/
def log2Fuel : ℕ → ℕ → ℕ
| 0, _ => 0
| fuel + 1, n => if n ≤ 1 then 0 else log2Fuel fuel (n / 2) + 1

/-- Floor of the binary logarithm of a natural number (0 at 0). -/
def natLog2 (n : ℕ) : ℕ := log2Fuel n n

/-- The binary exponent of a positive rational: the unique `e` with
`2 ^ e ≤ q < 2 ^ (e + 1)` (junk on `q ≤ 0`). -/
def ilog2 (q : ℚ) : ℤ :=
let e0 : ℤ := (natLog2 q.num.toNat : ℤ) - (natLog2 q.den : ℤ)
if (2 : ℚ) ^ e0 ≤ q then e0 else e0 - 1

/-- Round a rational to the nearest integer, ties to even. -/
def rne (t : ℚ) : ℤ :=
if 2 * (t - (⌊t⌋ : ℚ)) < 1 then ⌊t⌋
else if 1 < 2 * (t - (⌊t⌋ : ℚ)) then ⌊t⌋ + 1
else if ⌊t⌋ % 2 = 0 then ⌊t⌋ else ⌊t⌋ + 1

/-- Round a positive rational to 53 significant bits, to nearest, ties to
even: the significand `q * 2 ^ (-e)` lies in `[2 ^ 52, 2 ^ 53)` and is
rounded to an integer. -/
def flPos (q : ℚ) : ℚ :=
let e : ℤ := ilog2 q - 52
(rne (q * (2 : ℚ) ^ (-e)) : ℚ) * (2 : ℚ) ^ e

/-- IEEE binary64 rounding of an exact rational (round to nearest, ties to
even, unbounded exponent): the value a Python float operation returns for the
exact result `q`.  Overflow and subnormals are not modelled; the script's
values are all normal. -/
def fl (q : ℚ) : ℚ :=
if q < 0 then -flPos (-q) else if q = 0 then 0 else flPos q

/-- The pixel-size computation `int(base_size * scale)` from `main`
(line 103). -/
def pixelSize (base : ℚ) (scale : ℕ) : ℕ :=
(pythonInt (base * scale)).toNat

/-- The fixed ordered size table `sizes` from `main` (lines 84-99). -/
def sizesTable : List (ℚ × ℕ) :=
[ (20, 1), (20, 2), (20, 3),
  (29, 1), (29, 2), (29, 3),
  (40, 1), (40, 2), (40, 3),
  (60, 2), (60, 3),
  (76, 1), (76, 2),
  (83.5, 2),
  (1024, 1),
  (16, 1), (16, 2),
  (32, 1), (32, 2),
  (128, 1), (128, 2),
  (256, 1), (256, 2),
  (512, 1), (512, 2) ]

/-- One step of the dedup loop in `main` (lines 101-106): a pair whose pixel
size was already generated is skipped, otherwise its pixel size is appended
(the file for it is rendered and saved at that point). -/
def dedupStep (acc : List ℕ) (p : ℚ × ℕ) : List ℕ :=
let ps := pixelSize p.1 p.2
if ps ∈ acc then acc else acc ++ [ps]

/-- The ordered list of pixel sizes the driver actually renders and saves,
one file per element (the dedup loop of `main`, lines 101-111). -/
def generatedSizes (table : List (ℚ × ℕ)) : List ℕ :=
table.foldl dedupStep []

/-- The filename convention `icon_{pixel_size}x{pixel_size}.png` from `main`
(line 109). -/
def iconFilename (p : ℕ) : String :=
"icon_" ++ toString p ++ "x" ++ toString p ++ ".png"

/-- One entry of the `images` list of `Contents.json` (lines 114-155). -/
structure ManifestEntry where
  size : String
  idiom : String
  filename : String
  scale : String
deriving DecidableEq, Repr

/-- The hard-coded `images` list of the `contents` dictionary in `main`
(lines 115-155), in source order. -/
def contentsImages : List ManifestEntry :=
[ ⟨"20x20", "iphone", "icon_40x40.png", "2x"⟩,
  ⟨"20x20", "iphone", "icon_60x60.png", "3x"⟩,
  ⟨"29x29", "iphone", "icon_58x58.png", "2x"⟩,
  ⟨"29x29", "iphone", "icon_87x87.png", "3x"⟩,
  ⟨"40x40", "iphone", "icon_80x80.png", "2x"⟩,
  ⟨"40x40", "iphone", "icon_120x120.png", "3x"⟩,
  ⟨"60x60", "iphone", "icon_120x120.png", "2x"⟩,
  ⟨"60x60", "iphone", "icon_180x180.png", "3x"⟩,
  ⟨"20x20", "ipad", "icon_20x20.png", "1x"⟩,
  ⟨"20x20", "ipad", "icon_40x40.png", "2x"⟩,
  ⟨"29x29", "ipad", "icon_29x29.png", "1x"⟩,
  ⟨"29x29", "ipad", "icon_58x58.png", "2x"⟩,
  ⟨"40x40", "ipad", "icon_40x40.png", "1x"⟩,
  ⟨"40x40", "ipad", "icon_80x80.png", "2x"⟩,
  ⟨"76x76", "ipad", "icon_76x76.png", "1x"⟩,
  ⟨"76x76", "ipad", "icon_152x152.png", "2x"⟩,
  ⟨"83.5x83.5", "ipad", "icon_167x167.png", "2x"⟩,
  ⟨"1024x1024", "ios-marketing", "icon_1024x1024.png", "1x"⟩,
  ⟨"16x16", "mac", "icon_16x16.png", "1x"⟩,
  ⟨"16x16", "mac", "icon_32x32.png", "2x"⟩,
  ⟨"32x32", "mac", "icon_32x32.png", "1x"⟩,
  ⟨"32x32", "mac", "icon_64x64.png", "2x"⟩,
  ⟨"128x128", "mac", "icon_128x128.png", "1x"⟩,
  ⟨"128x128", "mac", "icon_256x256.png", "2x"⟩,
  ⟨"256x256", "mac", "icon_256x256.png", "1x"⟩,
  ⟨"256x256", "mac", "icon_512x512.png", "2x"⟩,
  ⟨"512x512", "mac", "icon_512x512.png", "1x"⟩,
  ⟨"512x512", "mac", "icon_1024x1024.png", "2x"⟩ ]

/-- The static `info` block of `Contents.json` (line 156): format version. -/
def contentsInfoVersion : ℕ := 1

/-- The static `info` block of `Contents.json` (line 156): generator id. -/
def contentsInfoAuthor : String := "xcode"

/-- Split a character list at every occurrence of `c` (used to parse the
manifest's `"AxA"` size strings and `"Nx"` scale strings). -/
def splitOnChar (c : Char) : List Char → List (List Char)
| [] => [[]]
| a :: rest =>
  let r := splitOnChar c rest
  if a = c then [] :: r
  else
    match r with
    | [] => [[a]]
    | h :: t => (a :: h) :: t

/-- Value of a decimal digit character, `none` for a non-digit. -/
def digitVal (c : Char) : Option ℕ :=
if '0' ≤ c ∧ c ≤ '9' then some (c.toNat - 48) else none

/-- Parse a nonempty string of decimal digits as a natural number. -/
def parseNatDigits (l : List Char) : Option ℕ :=
match l with
| [] => none
| _ => l.foldl (fun acc c =>
    match acc, digitVal c with
    | some n, some d => some (10 * n + d)
    | _, _ => none) (some 0)

/-- Parse a decimal numeral such as `"83.5"` as an exact rational. -/
def parseDecimalQ (t : String) : Option ℚ :=
match splitOnChar '.' t.toList with
| [w] => (parseNatDigits w).map (fun n => (n : ℚ))
| [w, d] =>
  match parseNatDigits w, parseNatDigits d with
  | some a, some b => some ((a : ℚ) + (b : ℚ) / (10 : ℚ) ^ d.length)
  | _, _ => none
| _ => none

/-- Parse a manifest size string `"AxA"` as the logical size `A`. -/
def parseSizeStr (t : String) : Option ℚ :=
match splitOnChar 'x' t.toList with
| [a, b] => if a = b then parseDecimalQ ⟨a⟩ else none
| _ => none

/-- Parse a manifest scale string `"Nx"` as the integer scale `N`. -/
def parseScaleStr (t : String) : Option ℕ :=
match splitOnChar 'x' t.toList with
| [n, r] => if r = [] then parseNatDigits n else none
| _ => none

/-- A manifest entry is internally consistent when its size string is `"AxA"`,
its scale string is `"Nx"`, and its filename is `icon_{P}x{P}.png` for
`P = int(A * N)` (the driver's pixel-size computation). -/
def entryConsistent (e : ManifestEntry) : Bool :=
match parseSizeStr e.size, parseScaleStr e.scale with
| some a, some n => decide (e.filename = iconFilename (pixelSize a n))
| _, _ => false

/-- An RGBA color; channels are the unbounded integers the source's
arithmetic produces (the claims establish the 0..255 ranges). -/
structure Color where
  r : ℤ
  g : ℤ
  b : ℤ
  a : ℤ
deriving DecidableEq, Repr

/-- An in-memory image: a square canvas of `size` by `size` pixels addressed
by integer coordinates.  The pixel map is total; only coordinates with
`0 ≤ x, y < size` are meaningful. -/
structure Img where
  size : ℕ
  pixel : ℤ → ℤ → Color

/-- The initial fill `(0, 0, 0, 0)` of `Image.new` (line 16). -/
def transparentBlack : Color := ⟨0, 0, 0, 0⟩

/-- The fresh canvas `Image.new('RGBA', (size, size), (0, 0, 0, 0))`
(line 16). -/
def blankImg (s : ℕ) : Img := ⟨s, fun _ _ => transparentBlack⟩

/-- The gradient color of row `y` (lines 21-24) in exact binary64 semantics:
`ratio = y / size` is the correctly rounded double quotient, the literal
`0.3` denotes the double nearest 3/10, every arithmetic operation rounds via
`fl` in the source's evaluation order, and `int(...)` truncates. -/
def gradColor (s y : ℕ) : Color :=
let t := fl ((y : ℚ) / (s : ℚ))
⟨pythonInt (fl (255 * fl (1 - fl (t * fl (3 / 10))))),
 pythonInt (fl (140 - fl (t * 60))),
 pythonInt (fl (100 + fl (t * 80))),
 255⟩

/-- The row fill `draw.line([(0, y), (size, y)], fill=c)` (line 25): overwrite the
horizontal run from `x = 0` to `x = size` in row `y`. -/
def drawHLine (img : Img) (y : ℤ) (c : Color) : Img :=
⟨img.size, fun px py =>
  if py = y ∧ 0 ≤ px ∧ px ≤ (img.size : ℤ) then c else img.pixel px py⟩

/-- The gradient loop `for y in range(size)` of lines 20-25. -/
def gradientImg (s : ℕ) : Img :=
(List.range s).foldl (fun img y => drawHLine img (Int.ofNat y) (gradColor s y)) (blankImg s)

/-- Membership in the closed disk with center `(cx, cy)` and radius `rad`. -/
def inDisk (cx cy rad x y : ℤ) : Bool :=
decide ((x - cx) ^ 2 + (y - cy) ^ 2 ≤ rad ^ 2)

/-- The region of a filled rounded rectangle with bounding box
`(x0, y0)`-`(x1, y1)` and corner radius `rad`: the box minus the parts of the
corner squares outside the quarter disks. -/
def inRoundedRect (x0 y0 x1 y1 rad x y : ℤ) : Bool :=
decide (x0 ≤ x) && decide (x ≤ x1) && decide (y0 ≤ y) && decide (y ≤ y1) &&
(!(decide (x < x0 + rad) && decide (y < y0 + rad))
  || inDisk (x0 + rad) (y0 + rad) rad x y) &&
(!(decide (x1 - rad < x) && decide (y < y0 + rad))
  || inDisk (x1 - rad) (y0 + rad) rad x y) &&
(!(decide (x < x0 + rad) && decide (y1 - rad < y))
  || inDisk (x0 + rad) (y1 - rad) rad x y) &&
(!(decide (x1 - rad < x) && decide (y1 - rad < y))
  || inDisk (x1 - rad) (y1 - rad) rad x y)

/-- The opacity mask of lines 28-35: 255 inside a rounded rectangle spanning
the full canvas (`[(0, 0), (size - 1, size - 1)]`) with corner radius
`size // 4`, 0 outside (the `'L'` image starts all 0 and the rounded
rectangle is drawn with fill 255). -/
def maskVal (s : ℕ) (x y : ℤ) : ℤ :=
if inRoundedRect 0 0 ((s : ℤ) - 1) ((s : ℤ) - 1) ((s : ℤ) / 4) x y then 255 else 0

/-- The alpha replacement `img.putalpha(mask)` (line 36): replace the whole alpha channel by the
mask, discarding prior alpha. -/
def putalpha (img : Img) (mask : ℤ → ℤ → ℤ) : Img :=
⟨img.size, fun x y => { img.pixel x y with a := mask x y }⟩

/-- The image after the gradient fill and the rounded-corner mask
(lines 16-36). -/
def maskedImg (s : ℕ) : Img :=
putalpha (gradientImg s) (maskVal s)

/-- A filled drawing command of `ImageDraw`: rounded rectangle, polygon
(a triangle here), or ellipse given by its bounding box. -/
inductive Shape where
| rrect (x0 y0 x1 y1 rad : ℤ) (c : Color)
| tri (p1 p2 p3 : ℤ × ℤ) (c : Color)
| ellipse (x0 y0 x1 y1 : ℤ) (c : Color)
deriving DecidableEq, Repr

/-- The opaque white fill `(255, 255, 255, 255)` of the bubble and tail. -/
def white : Color := ⟨255, 255, 255, 255⟩

/-- The fill `(200, 100, 120, 255)` of the three dots (line 72). -/
def dotFill : Color := ⟨200, 100, 120, 255⟩

/-- Cross product for the half-plane test of triangle membership. -/
def cross2 (a b p : ℤ × ℤ) : ℤ :=
(b.1 - a.1) * (p.2 - a.2) - (b.2 - a.2) * (p.1 - a.1)

/-- Membership in the filled triangle `p1 p2 p3`: the three half-plane signs
agree. -/
def inTriangle (p1 p2 p3 : ℤ × ℤ) (x y : ℤ) : Bool :=
let d1 := cross2 p1 p2 (x, y)
let d2 := cross2 p2 p3 (x, y)
let d3 := cross2 p3 p1 (x, y)
(decide (0 ≤ d1) && decide (0 ≤ d2) && decide (0 ≤ d3)) ||
(decide (d1 ≤ 0) && decide (d2 ≤ 0) && decide (d3 ≤ 0))

/-- Membership in the filled ellipse inscribed in the bounding box
`(x0, y0)`-`(x1, y1)`. -/
def inEllipse (x0 y0 x1 y1 x y : ℤ) : Bool :=
decide ((2 * x - (x0 + x1)) ^ 2 * (y1 - y0) ^ 2
  + (2 * y - (y0 + y1)) ^ 2 * (x1 - x0) ^ 2 ≤ (x1 - x0) ^ 2 * (y1 - y0) ^ 2)

/-- The fill color of a drawing command. -/
def shapeFill : Shape → Color
| .rrect _ _ _ _ _ c => c
| .tri _ _ _ c => c
| .ellipse _ _ _ _ c => c

/-- The region covered by a drawing command. -/
def shapeRegion : Shape → ℤ → ℤ → Bool
| .rrect x0 y0 x1 y1 rad _, x, y => inRoundedRect x0 y0 x1 y1 rad x y
| .tri p1 p2 p3 _, x, y => inTriangle p1 p2 p3 x y
| .ellipse x0 y0 x1 y1 _, x, y => inEllipse x0 y0 x1 y1 x y

/-- Execute one filled drawing command: overwrite every pixel of its region
with the fill color (`ImageDraw` on the target image overwrites; it does not
blend). -/
def applyShape (img : Img) (sh : Shape) : Img :=
⟨img.size, fun x y => if shapeRegion sh x y then shapeFill sh else img.pixel x y⟩

/-- The drawing commands of lines 38-73 in source order: bubble body, bubble
tail, then the three dots for `i in (-1, 0, 1)`.  All divisions are Python
`//` on nonnegative operands, i.e. integer floor division. -/
def shapeOps (s : ℕ) : List Shape :=
let z : ℤ := (s : ℤ)
let bubbleMargin := z / 6
let bubbleLeft := bubbleMargin
let bubbleTop := bubbleMargin
let bubbleRight := z - bubbleMargin
let bubbleBottom := z - bubbleMargin - z / 8
let bubbleRadius := z / 8
let dotY := (bubbleTop + bubbleBottom) / 2
let dotRadius := z / 20
let dotSpacing := z / 6
let centerX := (bubbleLeft + bubbleRight) / 2
[Shape.rrect bubbleLeft bubbleTop bubbleRight bubbleBottom bubbleRadius white,
 Shape.tri (bubbleLeft + z / 8, bubbleBottom - z / 20)
           (bubbleLeft + z / 16, bubbleBottom + z / 8)
           (bubbleLeft + z / 4, bubbleBottom - z / 20) white] ++
  ([-1, 0, 1] : List ℤ).map (fun i =>
    Shape.ellipse (centerX + i * dotSpacing - dotRadius) (dotY - dotRadius)
      (centerX + i * dotSpacing + dotRadius) (dotY + dotRadius) dotFill)

/-- The renderer `create_icon` (lines 14-75): gradient background,
rounded-corner mask, then the bubble drawing commands. -/
def createIcon (s : ℕ) : Img :=
(shapeOps s).foldl applyShape (maskedImg s)

end GenerateIcons

namespace GenerateIcons

theorem gradFold_size (s : ℕ) (l : List ℕ) (img : Img) :
    (l.foldl (fun im r => drawHLine im (Int.ofNat r) (gradColor s r)) img).size
      = img.size := by
  induction l generalizing img with
  | nil => rfl
  | cons a t ih =>
      simp only [List.foldl_cons]
      rw [ih]
      rfl

theorem gradFold_pixel (s : ℕ) (l : List ℕ) (img : Img) (x y : ℕ)
    (hx : x ≤ img.size) :
    (l.foldl (fun im r => drawHLine im (Int.ofNat r) (gradColor s r)) img).pixel
        (Int.ofNat x) (Int.ofNat y)
      = if y ∈ l then gradColor s y
        else img.pixel (Int.ofNat x) (Int.ofNat y) := by
  induction l generalizing img with
  | nil => simp
  | cons a t ih =>
      simp only [List.foldl_cons]
      rw [ih (drawHLine img (Int.ofNat a) (gradColor s a)) hx]
      by_cases hyt : y ∈ t
      · simp [hyt]
      · by_cases hya : y = a
        · subst hya
          simp [hyt, drawHLine, hx]
        · have : (Int.ofNat y) ≠ (Int.ofNat a) := by
            simpa using hya
          simp [hyt, hya, drawHLine, this]

theorem gradientImg_size (s : ℕ) : (gradientImg s).size = s :=
  gradFold_size s (List.range s) (blankImg s)

theorem gradientImg_pixel (s x y : ℕ) (hx : x < s) (hy : y < s) :
    (gradientImg s).pixel (Int.ofNat x) (Int.ofNat y) = gradColor s y := by
  unfold gradientImg
  rw [gradFold_pixel s (List.range s) (blankImg s) x y (le_of_lt hx),
    if_pos (List.mem_range.mpr hy)]

theorem log2Fuel_spec (fuel n : ℕ) (h1 : 1 ≤ n) (h2 : n ≤ fuel) :
    2 ^ log2Fuel fuel n ≤ n ∧ n < 2 ^ (log2Fuel fuel n + 1) := by
  induction fuel generalizing n with
  | zero => omega
  | succ fuel ih =>
      by_cases hn : n ≤ 1
      · have hn1 : n = 1 := by omega
        subst hn1
        norm_num [log2Fuel]
      · have hrec := ih (n / 2) (by omega) (by omega)
        have heq : log2Fuel (fuel + 1) n = log2Fuel fuel (n / 2) + 1 := by
          simp [log2Fuel, hn]
        rw [heq]
        have e1 : 2 ^ (log2Fuel fuel (n / 2) + 1) = 2 * 2 ^ log2Fuel fuel (n / 2) := by
          ring
        have e2 : 2 ^ (log2Fuel fuel (n / 2) + 1 + 1)
            = 2 * 2 ^ (log2Fuel fuel (n / 2) + 1) := by
          ring
        omega

theorem natLog2_spec (n : ℕ) (h : 1 ≤ n) :
    2 ^ natLog2 n ≤ n ∧ n < 2 ^ (natLog2 n + 1) :=
  log2Fuel_spec n n h le_rfl

theorem ilog2_spec (q : ℚ) (hq : 0 < q) :
    (2 : ℚ) ^ ilog2 q ≤ q ∧ q < (2 : ℚ) ^ (ilog2 q + 1) := by
  have hnum : 0 < q.num := Rat.num_pos.mpr hq
  have hden : 0 < q.den := q.den_pos
  have hna : (q.num.toNat : ℤ) = q.num := Int.toNat_of_nonneg hnum.le
  have hna1 : 1 ≤ q.num.toNat := by omega
  obtain ⟨ha1, ha2⟩ := natLog2_spec q.num.toNat hna1
  obtain ⟨hb1, hb2⟩ := natLog2_spec q.den hden
  have h2 : (2 : ℚ) ≠ 0 := by norm_num
  have hbQ : (0 : ℚ) < (q.den : ℚ) := by exact_mod_cast hden
  have hcastnum : ((q.num.toNat : ℚ)) = ((q.num : ℚ)) := by exact_mod_cast hna
  have hrepr : q = (q.num.toNat : ℚ) / (q.den : ℚ) := by
    rw [hcastnum]
    exact (Rat.num_div_den q).symm
  unfold ilog2
  set da := natLog2 q.num.toNat with hda
  set db := natLog2 q.den with hdb
  have haQ1 : (2 : ℚ) ^ (da : ℕ) ≤ (q.num.toNat : ℚ) := by exact_mod_cast ha1
  have haQ2 : ((q.num.toNat : ℚ)) < 2 ^ (da + 1) := by exact_mod_cast ha2
  have hbQ1 : (2 : ℚ) ^ (db : ℕ) ≤ (q.den : ℚ) := by exact_mod_cast hb1
  have hbQ2 : ((q.den : ℚ)) < 2 ^ (db + 1) := by exact_mod_cast hb2
  have hqU : q < (2 : ℚ) ^ ((da : ℤ) - (db : ℤ) + 1) := by
    rw [hrepr, div_lt_iff₀ hbQ]
    have hsplit : (2 : ℚ) ^ ((da : ℤ) - (db : ℤ) + 1) * (2 : ℚ) ^ ((db : ℤ))
        = (2 : ℚ) ^ ((da : ℤ) + 1) := by
      rw [← zpow_add₀ h2]
      congr 1
      omega
    have hmono : (2 : ℚ) ^ ((da : ℤ) - (db : ℤ) + 1) * (2 : ℚ) ^ ((db : ℤ))
        ≤ (2 : ℚ) ^ ((da : ℤ) - (db : ℤ) + 1) * (q.den : ℚ) := by
      have hp : (0 : ℚ) ≤ (2 : ℚ) ^ ((da : ℤ) - (db : ℤ) + 1) :=
        (zpow_pos (by norm_num) _).le
      have hb : (2 : ℚ) ^ ((db : ℤ)) ≤ (q.den : ℚ) := by
        rw [zpow_natCast]
        exact hbQ1
      exact mul_le_mul_of_nonneg_left hb hp
    have hcast : (2 : ℚ) ^ ((da : ℤ) + 1) = 2 ^ (da + 1) := by
      rw [show ((da : ℤ) + 1) = ((da + 1 : ℕ) : ℤ) by omega, zpow_natCast]
    calc (q.num.toNat : ℚ) < 2 ^ (da + 1) := haQ2
      _ = (2 : ℚ) ^ ((da : ℤ) + 1) := hcast.symm
      _ = (2 : ℚ) ^ ((da : ℤ) - (db : ℤ) + 1) * (2 : ℚ) ^ ((db : ℤ)) := hsplit.symm
      _ ≤ (2 : ℚ) ^ ((da : ℤ) - (db : ℤ) + 1) * (q.den : ℚ) := hmono
  have hqL : (2 : ℚ) ^ ((da : ℤ) - (db : ℤ) - 1) < q := by
    rw [hrepr, lt_div_iff₀ hbQ]
    have hsplit : (2 : ℚ) ^ ((da : ℤ) - (db : ℤ) - 1) * (2 : ℚ) ^ ((db : ℤ) + 1)
        = (2 : ℚ) ^ ((da : ℤ)) := by
      rw [← zpow_add₀ h2]
      congr 1
      omega
    have hcast1 : (2 : ℚ) ^ ((db : ℤ) + 1) = 2 ^ (db + 1) := by
      rw [show ((db : ℤ) + 1) = ((db + 1 : ℕ) : ℤ) by omega, zpow_natCast]
    have hp : (0 : ℚ) < (2 : ℚ) ^ ((da : ℤ) - (db : ℤ) - 1) :=
      zpow_pos (by norm_num) _
    have hbQ2' : ((q.den : ℚ)) < (2 : ℚ) ^ ((db : ℤ) + 1) := by
      rw [hcast1]
      exact hbQ2
    calc (2 : ℚ) ^ ((da : ℤ) - (db : ℤ) - 1) * (q.den : ℚ)
        < (2 : ℚ) ^ ((da : ℤ) - (db : ℤ) - 1) * (2 : ℚ) ^ ((db : ℤ) + 1) :=
          mul_lt_mul_of_pos_left hbQ2' hp
      _ = (2 : ℚ) ^ ((da : ℤ)) := hsplit
      _ = 2 ^ da := zpow_natCast 2 da
      _ ≤ (q.num.toNat : ℚ) := haQ1
  by_cases hcase : (2 : ℚ) ^ ((da : ℤ) - (db : ℤ)) ≤ q
  · rw [if_pos hcase]
    exact ⟨hcase, hqU⟩
  · rw [if_neg hcase]
    constructor
    · exact le_of_lt hqL
    · have he : (da : ℤ) - (db : ℤ) - 1 + 1 = (da : ℤ) - (db : ℤ) := by ring
      rw [he]
      exact lt_of_not_ge hcase

theorem rne_spec (t : ℚ) : |(rne t : ℚ) - t| ≤ 1 / 2 := by
  have h0 : (⌊t⌋ : ℚ) ≤ t := Int.floor_le t
  have h1 : t < (⌊t⌋ : ℚ) + 1 := Int.lt_floor_add_one t
  unfold rne
  split_ifs <;> rw [abs_le] <;> constructor <;> push_cast <;> linarith

theorem rne_scaled_err (t : ℚ) (e : ℤ) :
    |(rne t : ℚ) * (2 : ℚ) ^ e - t * (2 : ℚ) ^ e| ≤ (2 : ℚ) ^ e / 2 := by
  have hpe : (0 : ℚ) < (2 : ℚ) ^ e := zpow_pos (by norm_num) e
  rw [← sub_mul, abs_mul, abs_of_pos hpe]
  have h := rne_spec t
  calc |(rne t : ℚ) - t| * (2 : ℚ) ^ e ≤ 1 / 2 * (2 : ℚ) ^ e :=
        mul_le_mul_of_nonneg_right h hpe.le
    _ = (2 : ℚ) ^ e / 2 := by ring

theorem flPos_bracket (q : ℚ) (hq : 0 < q) :
    q - q / 2 ^ 52 ≤ flPos q ∧ flPos q ≤ q + q / 2 ^ 52 := by
  obtain ⟨hle, _⟩ := ilog2_spec q hq
  have h2 : (2 : ℚ) ≠ 0 := by norm_num
  have hpe : (0 : ℚ) < (2 : ℚ) ^ (ilog2 q - 52) := zpow_pos (by norm_num) _
  have hcancel : q * (2 : ℚ) ^ (-(ilog2 q - 52)) * (2 : ℚ) ^ (ilog2 q - 52) = q := by
    rw [mul_assoc, ← zpow_add₀ h2, neg_add_cancel, zpow_zero, mul_one]
  have h := rne_scaled_err (q * (2 : ℚ) ^ (-(ilog2 q - 52))) (ilog2 q - 52)
  rw [hcancel] at h
  obtain ⟨hlo, hhi⟩ := abs_le.mp h
  have hsplit : (2 : ℚ) ^ (ilog2 q) = (2 : ℚ) ^ (ilog2 q - 52) * (2 : ℚ) ^ (52 : ℕ) := by
    rw [← zpow_natCast (2 : ℚ) 52, ← zpow_add₀ h2]
    congr 1
    omega
  have h52 : (0 : ℚ) < 2 ^ 52 := by positivity
  have hqe : (2 : ℚ) ^ (ilog2 q - 52) ≤ q / 2 ^ 52 := by
    rw [le_div_iff₀ h52]
    calc (2 : ℚ) ^ (ilog2 q - 52) * 2 ^ 52 = (2 : ℚ) ^ (ilog2 q) := hsplit.symm
      _ ≤ q := hle
  constructor
  · show q - q / 2 ^ 52 ≤ flPos q
    unfold flPos
    linarith
  · show flPos q ≤ q + q / 2 ^ 52
    unfold flPos
    linarith

theorem fl_bracket (q : ℚ) (hq : 0 ≤ q) :
    q - q / 2 ^ 52 ≤ fl q ∧ fl q ≤ q + q / 2 ^ 52 := by
  rcases eq_or_lt_of_le hq with h | h
  · rw [← h]
    norm_num [fl]
  · unfold fl
    rw [if_neg (not_lt.mpr hq), if_neg h.ne']
    exact flPos_bracket q h

theorem fl_nonneg (q : ℚ) (hq : 0 ≤ q) : 0 ≤ fl q := by
  have h := (fl_bracket q hq).1
  have h52 : (0 : ℚ) < 2 ^ 52 := by positivity
  have hdd : q / 2 ^ 52 ≤ q := by
    rw [div_le_iff₀ h52]
    nlinarith
  linarith

theorem fl_le_bound (v c : ℚ) (hv : 0 ≤ v) (hvc : v ≤ c) : fl v ≤ c + c / 2 ^ 52 := by
  have h := (fl_bracket v hv).2
  have h52 : (0 : ℚ) < 2 ^ 52 := by positivity
  have hdiv : v / 2 ^ 52 ≤ c / 2 ^ 52 := by gcongr
  linarith

theorem pythonInt_range (v : ℚ) (h0 : 0 ≤ v) (h1 : v < 256) :
    0 ≤ pythonInt v ∧ pythonInt v ≤ 255 := by
  unfold pythonInt
  rw [if_pos h0]
  constructor
  · exact Int.le_floor.mpr (by exact_mod_cast h0)
  · have h := Int.floor_lt.mpr (show v < ((256 : ℤ) : ℚ) by exact_mod_cast h1)
    omega

theorem gradColor_bounds (s y : ℕ) (hs : 0 < s) (hy : y < s) :
    (0 ≤ (gradColor s y).r ∧ (gradColor s y).r ≤ 255) ∧
    (0 ≤ (gradColor s y).g ∧ (gradColor s y).g ≤ 255) ∧
    (0 ≤ (gradColor s y).b ∧ (gradColor s y).b ≤ 255) := by
  have hsq : (0 : ℚ) < (s : ℚ) := by exact_mod_cast hs
  have hd0 : (0 : ℚ) ≤ (y : ℚ) / (s : ℚ) := div_nonneg (by positivity) hsq.le
  have hd1 : (y : ℚ) / (s : ℚ) ≤ 1 :=
    le_of_lt ((div_lt_one hsq).mpr (by exact_mod_cast hy))
  have ht0 : 0 ≤ fl ((y : ℚ) / (s : ℚ)) := fl_nonneg _ hd0
  have ht1 : fl ((y : ℚ) / (s : ℚ)) ≤ 1.001 := by
    have hb := fl_le_bound ((y : ℚ) / (s : ℚ)) 1 hd0 hd1
    have harith : (1 : ℚ) + 1 / 2 ^ 52 ≤ 1.001 := by norm_num
    linarith
  have h03a : 0 ≤ fl ((3 : ℚ) / 10) := fl_nonneg _ (by norm_num)
  have h03b : fl ((3 : ℚ) / 10) ≤ 0.35 := by
    have hb := fl_le_bound ((3 : ℚ) / 10) (3 / 10) (by norm_num) le_rfl
    have harith : (3 : ℚ) / 10 + 3 / 10 / 2 ^ 52 ≤ 0.35 := by norm_num
    linarith
  have hm1 : 0 ≤ fl ((y : ℚ) / (s : ℚ)) * fl (3 / 10) := mul_nonneg ht0 h03a
  have hm1U : fl ((y : ℚ) / (s : ℚ)) * fl (3 / 10) ≤ 0.36 := by
    have hmul := mul_le_mul ht1 h03b h03a (by norm_num : (0 : ℚ) ≤ 1.001)
    have harith : (1.001 : ℚ) * 0.35 ≤ 0.36 := by norm_num
    linarith
  have hp0 : 0 ≤ fl (fl ((y : ℚ) / (s : ℚ)) * fl (3 / 10)) := fl_nonneg _ hm1
  have hpU : fl (fl ((y : ℚ) / (s : ℚ)) * fl (3 / 10)) ≤ 0.37 := by
    have hb := fl_le_bound _ 0.36 hm1 hm1U
    have harith : (0.36 : ℚ) + 0.36 / 2 ^ 52 ≤ 0.37 := by norm_num
    linarith
  have hq10 : (0 : ℚ) ≤ 1 - fl (fl ((y : ℚ) / (s : ℚ)) * fl (3 / 10)) := by linarith
  have hq11 : 1 - fl (fl ((y : ℚ) / (s : ℚ)) * fl (3 / 10)) ≤ 1 := by linarith
  have hM0 : 0 ≤ fl (1 - fl (fl ((y : ℚ) / (s : ℚ)) * fl (3 / 10))) := fl_nonneg _ hq10
  have hMU : fl (1 - fl (fl ((y : ℚ) / (s : ℚ)) * fl (3 / 10))) ≤ 1.001 := by
    have hb := fl_le_bound _ 1 hq10 hq11
    have harith : (1 : ℚ) + 1 / 2 ^ 52 ≤ 1.001 := by norm_num
    linarith
  have hv0 : (0 : ℚ) ≤ 255 * fl (1 - fl (fl ((y : ℚ) / (s : ℚ)) * fl (3 / 10))) :=
    mul_nonneg (by norm_num) hM0
  have hvU : 255 * fl (1 - fl (fl ((y : ℚ) / (s : ℚ)) * fl (3 / 10))) ≤ 255.255 := by
    linarith
  have hR0 : 0 ≤ fl (255 * fl (1 - fl (fl ((y : ℚ) / (s : ℚ)) * fl (3 / 10)))) :=
    fl_nonneg _ hv0
  have hRU : fl (255 * fl (1 - fl (fl ((y : ℚ) / (s : ℚ)) * fl (3 / 10)))) < 256 := by
    have hb := fl_le_bound _ 255.255 hv0 hvU
    have harith : (255.255 : ℚ) + 255.255 / 2 ^ 52 < 256 := by norm_num
    linarith
  have hred := pythonInt_range _ hR0 hRU
  have hg1 : 0 ≤ fl ((y : ℚ) / (s : ℚ)) * 60 := mul_nonneg ht0 (by norm_num)
  have hg1U : fl ((y : ℚ) / (s : ℚ)) * 60 ≤ 60.06 := by linarith
  have hg2 : 0 ≤ fl (fl ((y : ℚ) / (s : ℚ)) * 60) := fl_nonneg _ hg1
  have hg2U : fl (fl ((y : ℚ) / (s : ℚ)) * 60) ≤ 60.1 := by
    have hb := fl_le_bound _ 60.06 hg1 hg1U
    have harith : (60.06 : ℚ) + 60.06 / 2 ^ 52 ≤ 60.1 := by norm_num
    linarith
  have hga0 : (0 : ℚ) ≤ 140 - fl (fl ((y : ℚ) / (s : ℚ)) * 60) := by linarith
  have hgaU : 140 - fl (fl ((y : ℚ) / (s : ℚ)) * 60) ≤ 140 := by linarith
  have hG0 : 0 ≤ fl (140 - fl (fl ((y : ℚ) / (s : ℚ)) * 60)) := fl_nonneg _ hga0
  have hGU : fl (140 - fl (fl ((y : ℚ) / (s : ℚ)) * 60)) < 256 := by
    have hb := fl_le_bound _ 140 hga0 hgaU
    have harith : (140 : ℚ) + 140 / 2 ^ 52 < 256 := by norm_num
    linarith
  have hgreen := pythonInt_range _ hG0 hGU
  have hb1 : 0 ≤ fl ((y : ℚ) / (s : ℚ)) * 80 := mul_nonneg ht0 (by norm_num)
  have hb1U : fl ((y : ℚ) / (s : ℚ)) * 80 ≤ 80.08 := by linarith
  have hb2 : 0 ≤ fl (fl ((y : ℚ) / (s : ℚ)) * 80) := fl_nonneg _ hb1
  have hb2U : fl (fl ((y : ℚ) / (s : ℚ)) * 80) ≤ 80.1 := by
    have hbb := fl_le_bound _ 80.08 hb1 hb1U
    have harith : (80.08 : ℚ) + 80.08 / 2 ^ 52 ≤ 80.1 := by norm_num
    linarith
  have hba0 : (0 : ℚ) ≤ 100 + fl (fl ((y : ℚ) / (s : ℚ)) * 80) := by linarith
  have hbaU : 100 + fl (fl ((y : ℚ) / (s : ℚ)) * 80) ≤ 180.1 := by linarith
  have hB0 : 0 ≤ fl (100 + fl (fl ((y : ℚ) / (s : ℚ)) * 80)) := fl_nonneg _ hba0
  have hBU : fl (100 + fl (fl ((y : ℚ) / (s : ℚ)) * 80)) < 256 := by
    have hbb := fl_le_bound _ 180.1 hba0 hbaU
    have harith : (180.1 : ℚ) + 180.1 / 2 ^ 52 < 256 := by norm_num
    linarith
  have hblue := pythonInt_range _ hB0 hBU
  refine ⟨⟨?_, ?_⟩, ⟨?_, ?_⟩, ⟨?_, ?_⟩⟩
  · show 0 ≤ pythonInt (fl (255 * fl (1 - fl (fl ((y : ℚ) / (s : ℚ)) * fl (3 / 10)))))
    exact hred.1
  · show pythonInt (fl (255 * fl (1 - fl (fl ((y : ℚ) / (s : ℚ)) * fl (3 / 10))))) ≤ 255
    exact hred.2
  · show 0 ≤ pythonInt (fl (140 - fl (fl ((y : ℚ) / (s : ℚ)) * 60)))
    exact hgreen.1
  · show pythonInt (fl (140 - fl (fl ((y : ℚ) / (s : ℚ)) * 60))) ≤ 255
    exact hgreen.2
  · show 0 ≤ pythonInt (fl (100 + fl (fl ((y : ℚ) / (s : ℚ)) * 80)))
    exact hblue.1
  · show pythonInt (fl (100 + fl (fl ((y : ℚ) / (s : ℚ)) * 80))) ≤ 255
    exact hblue.2

set_option maxRecDepth 100000 in
/-- Claim C4 counterexample: at size 153, row 118, the program's binary64
arithmetic gives red channel 195 (the double product `ratio * 0.3` rounds so
that `255 * (1 - ratio * 0.3)` falls strictly below 196), while the claim's
exact-real formula gives exactly 196.  The first conjunct evaluates the
embedded program; the second evaluates the claim's formula. -/
theorem C4_counterexample :
    ((gradientImg 153).pixel (Int.ofNat 0) (Int.ofNat 118)).r = 195 ∧
    pythonInt (255 * (1 - 0.3 * ((118 : ℚ) / (153 : ℚ)))) = 196 := by
  constructor
  · rw [gradientImg_pixel 153 0 118 (by decide) (by decide)]
    decide
  · decide

/-- Claim C4 as amended: for every positive size and every row `y` in
`[0, size)`, every pixel of that row of the gradient background (before the
rounded-corner mask) has the color `(int(255 * (1 - ratio * 0.3)),
int(140 - ratio * 60), int(100 + ratio * 80), 255)` computed in IEEE binary64
arithmetic — `ratio` the correctly rounded double quotient `y / size`, the
literal `0.3` the double nearest 3/10, each operation correctly rounded
(`fl`) — and each channel is an integer in `[0, 255]`. -/
theorem C4_gradient_rows (s x y : ℕ) (hs : 0 < s) (hx : x < s) (hy : y < s) :
    (gradientImg s).pixel (Int.ofNat x) (Int.ofNat y) =
      ⟨pythonInt (fl (255 * fl (1 - fl (fl ((y : ℚ) / (s : ℚ)) * fl (3 / 10))))),
       pythonInt (fl (140 - fl (fl ((y : ℚ) / (s : ℚ)) * 60))),
       pythonInt (fl (100 + fl (fl ((y : ℚ) / (s : ℚ)) * 80))),
       255⟩ ∧
    0 ≤ ((gradientImg s).pixel (Int.ofNat x) (Int.ofNat y)).r ∧
    ((gradientImg s).pixel (Int.ofNat x) (Int.ofNat y)).r ≤ 255 ∧
    0 ≤ ((gradientImg s).pixel (Int.ofNat x) (Int.ofNat y)).g ∧
    ((gradientImg s).pixel (Int.ofNat x) (Int.ofNat y)).g ≤ 255 ∧
    0 ≤ ((gradientImg s).pixel (Int.ofNat x) (Int.ofNat y)).b ∧
    ((gradientImg s).pixel (Int.ofNat x) (Int.ofNat y)).b ≤ 255 ∧
    ((gradientImg s).pixel (Int.ofNat x) (Int.ofNat y)).a = 255 := by
  have hpix := gradientImg_pixel s x y hx hy
  have hb := gradColor_bounds s y hs hy
  rw [hpix]
  exact ⟨rfl, hb.1.1, hb.1.2, hb.2.1.1, hb.2.1.2, hb.2.2.1, hb.2.2.2, rfl⟩

/-- Claim C4 witness at size 3, pixel (1, 2). -/
theorem C4_gradient_rows_witness :
    (gradientImg 3).pixel (Int.ofNat 1) (Int.ofNat 2) =
      ⟨pythonInt (fl (255 * fl (1 - fl (fl (((2 : ℕ) : ℚ) / ((3 : ℕ) : ℚ)) * fl (3 / 10))))),
       pythonInt (fl (140 - fl (fl (((2 : ℕ) : ℚ) / ((3 : ℕ) : ℚ)) * 60))),
       pythonInt (fl (100 + fl (fl (((2 : ℕ) : ℚ) / ((3 : ℕ) : ℚ)) * 80))),
       255⟩ ∧
    0 ≤ ((gradientImg 3).pixel (Int.ofNat 1) (Int.ofNat 2)).r ∧
    ((gradientImg 3).pixel (Int.ofNat 1) (Int.ofNat 2)).r ≤ 255 ∧
    0 ≤ ((gradientImg 3).pixel (Int.ofNat 1) (Int.ofNat 2)).g ∧
    ((gradientImg 3).pixel (Int.ofNat 1) (Int.ofNat 2)).g ≤ 255 ∧
    0 ≤ ((gradientImg 3).pixel (Int.ofNat 1) (Int.ofNat 2)).b ∧
    ((gradientImg 3).pixel (Int.ofNat 1) (Int.ofNat 2)).b ≤ 255 ∧
    ((gradientImg 3).pixel (Int.ofNat 1) (Int.ofNat 2)).a = 255 :=
  C4_gradient_rows 3 1 2 (by decide) (by decide) (by decide)

/-- Claim C6: after the gradient fill, `putalpha` replaces the image's entire
alpha channel by the mask value, which is 255 inside the full-canvas rounded
rectangle of corner radius `size // 4` and 0 outside; the alpha written by
`putalpha` is the mask value whatever the prior image was, so the prior alpha
plays no role. -/
theorem C6_mask_replaces_alpha (s x y : ℕ) (img : Img) (m : ℤ → ℤ → ℤ)
    (hs : 0 < s) (hx : x < s) (hy : y < s) :
    ((maskedImg s).pixel (Int.ofNat x) (Int.ofNat y)).a
        = maskVal s (Int.ofNat x) (Int.ofNat y) ∧
    maskVal s (Int.ofNat x) (Int.ofNat y)
        = (if inRoundedRect 0 0 ((s : ℤ) - 1) ((s : ℤ) - 1) ((s : ℤ) / 4)
            (Int.ofNat x) (Int.ofNat y) then 255 else 0) ∧
    ((putalpha img m).pixel (Int.ofNat x) (Int.ofNat y)).a
        = m (Int.ofNat x) (Int.ofNat y) :=
  ⟨rfl, rfl, rfl⟩

/-- Claim C6 witness at size 1, pixel (0, 0), over a blank prior image and an
arbitrary constant mask. -/
theorem C6_mask_replaces_alpha_witness :
    ((maskedImg 1).pixel (Int.ofNat 0) (Int.ofNat 0)).a
        = maskVal 1 (Int.ofNat 0) (Int.ofNat 0) ∧
    maskVal 1 (Int.ofNat 0) (Int.ofNat 0)
        = (if inRoundedRect 0 0 ((1 : ℤ) - 1) ((1 : ℤ) - 1) ((1 : ℤ) / 4)
            (Int.ofNat 0) (Int.ofNat 0) then 255 else 0) ∧
    ((putalpha (blankImg 1) (fun _ _ => 7)).pixel (Int.ofNat 0) (Int.ofNat 0)).a
        = 7 :=
  C6_mask_replaces_alpha 1 0 0 (blankImg 1) (fun _ _ => 7)
    (by decide) (by decide) (by decide)

/-- Claim C5: after masking, the renderer draws, in order: the opaque white
rounded bubble body from `(size/6, size/6)` to
`(size - size/6, size - size/6 - size/8)` with corner radius `size/8`; the
opaque white tail triangle with vertices
`(left + size/8, bottom - size/20)`, `(left + size/16, bottom + size/8)`,
`(left + size/4, bottom - size/20)` where `left = size/6` and `bottom` is the
bubble's bottom edge; and three dots of radius `size/20` spaced `size/6`
apart, centered horizontally on the bubble's center
`(left + right)/2` and vertically at `(top + bottom)/2`, filled with
`(200, 100, 120, 255)` — each ellipse bounding box being center plus/minus
the radius, and all divisions integer floor division. -/
theorem C5_bubble_tail_dots (s : ℕ) :
    createIcon s = (shapeOps s).foldl applyShape (maskedImg s) ∧
    white = ⟨255, 255, 255, 255⟩ ∧
    dotFill = ⟨200, 100, 120, 255⟩ ∧
    shapeOps s =
      [Shape.rrect ((s : ℤ)/6) ((s : ℤ)/6) ((s : ℤ) - (s : ℤ)/6)
         ((s : ℤ) - (s : ℤ)/6 - (s : ℤ)/8) ((s : ℤ)/8) white,
       Shape.tri
         ((s : ℤ)/6 + (s : ℤ)/8, ((s : ℤ) - (s : ℤ)/6 - (s : ℤ)/8) - (s : ℤ)/20)
         ((s : ℤ)/6 + (s : ℤ)/16, ((s : ℤ) - (s : ℤ)/6 - (s : ℤ)/8) + (s : ℤ)/8)
         ((s : ℤ)/6 + (s : ℤ)/4, ((s : ℤ) - (s : ℤ)/6 - (s : ℤ)/8) - (s : ℤ)/20)
         white,
       Shape.ellipse
         (((s : ℤ)/6 + ((s : ℤ) - (s : ℤ)/6)) / 2 - (s : ℤ)/6 - (s : ℤ)/20)
         (((s : ℤ)/6 + ((s : ℤ) - (s : ℤ)/6 - (s : ℤ)/8)) / 2 - (s : ℤ)/20)
         (((s : ℤ)/6 + ((s : ℤ) - (s : ℤ)/6)) / 2 - (s : ℤ)/6 + (s : ℤ)/20)
         (((s : ℤ)/6 + ((s : ℤ) - (s : ℤ)/6 - (s : ℤ)/8)) / 2 + (s : ℤ)/20)
         dotFill,
       Shape.ellipse
         (((s : ℤ)/6 + ((s : ℤ) - (s : ℤ)/6)) / 2 - (s : ℤ)/20)
         (((s : ℤ)/6 + ((s : ℤ) - (s : ℤ)/6 - (s : ℤ)/8)) / 2 - (s : ℤ)/20)
         (((s : ℤ)/6 + ((s : ℤ) - (s : ℤ)/6)) / 2 + (s : ℤ)/20)
         (((s : ℤ)/6 + ((s : ℤ) - (s : ℤ)/6 - (s : ℤ)/8)) / 2 + (s : ℤ)/20)
         dotFill,
       Shape.ellipse
         (((s : ℤ)/6 + ((s : ℤ) - (s : ℤ)/6)) / 2 + (s : ℤ)/6 - (s : ℤ)/20)
         (((s : ℤ)/6 + ((s : ℤ) - (s : ℤ)/6 - (s : ℤ)/8)) / 2 - (s : ℤ)/20)
         (((s : ℤ)/6 + ((s : ℤ) - (s : ℤ)/6)) / 2 + (s : ℤ)/6 + (s : ℤ)/20)
         (((s : ℤ)/6 + ((s : ℤ) - (s : ℤ)/6 - (s : ℤ)/8)) / 2 + (s : ℤ)/20)
         dotFill] := by
  refine ⟨rfl, rfl, rfl, ?_⟩
  simp only [shapeOps, List.map_cons, List.map_nil, List.cons_append,
    List.nil_append, List.cons.injEq, List.nil_eq, Shape.rrect.injEq,
    Shape.tri.injEq, Shape.ellipse.injEq, Prod.mk.injEq, and_true, true_and]
  omega

theorem applyFold_size (l : List Shape) (img : Img) :
    (l.foldl applyShape img).size = img.size := by
  induction l generalizing img with
  | nil => rfl
  | cons a t ih =>
      simp only [List.foldl_cons]
      rw [ih]
      rfl

theorem applyFold_alpha (l : List Shape) (img : Img) (x y : ℤ)
    (hl : ∀ sh ∈ l, (shapeFill sh).a = 255)
    (hbase : (img.pixel x y).a = 0 ∨ (img.pixel x y).a = 255) :
    ((l.foldl applyShape img).pixel x y).a = 0 ∨
      ((l.foldl applyShape img).pixel x y).a = 255 := by
  induction l generalizing img with
  | nil => exact hbase
  | cons a t ih =>
      simp only [List.foldl_cons]
      refine ih (applyShape img a) (fun sh hsh => hl sh (List.mem_cons_of_mem a hsh)) ?_
      unfold applyShape
      dsimp only
      by_cases hreg : shapeRegion a x y = true
      · rw [if_pos hreg]
        exact Or.inr (hl a (List.mem_cons_self a t))
      · rw [if_neg hreg]
        exact hbase

theorem shapeOps_fill_alpha (s : ℕ) : ∀ sh ∈ shapeOps s, (shapeFill sh).a = 255 := by
  intro sh hsh
  simp only [shapeOps, List.mem_append, List.mem_cons, List.mem_map,
    List.mem_singleton, List.not_mem_nil, or_false] at hsh
  rcases hsh with (h | h) | ⟨i, _, h⟩ <;> subst h <;> rfl

theorem maskVal_cases (s : ℕ) (x y : ℤ) :
    maskVal s x y = 0 ∨ maskVal s x y = 255 := by
  unfold maskVal
  split
  · exact Or.inr rfl
  · exact Or.inl rfl

/-- Claim C8: the renderer is total (every operation of the embedding is a
total function, with no division by zero possible: Python `//` and `/` on a
positive `size` are modelled exactly), and for a positive size `s` it returns
an image of exactly `s` by `s` pixels in which every canvas pixel has a
defined alpha value (here in fact always 0 or 255). -/
theorem C8_renderer_total (s x y : ℕ) (hs : 0 < s) (hx : x < s) (hy : y < s) :
    (createIcon s).size = s ∧
    (((createIcon s).pixel (Int.ofNat x) (Int.ofNat y)).a = 0 ∨
     ((createIcon s).pixel (Int.ofNat x) (Int.ofNat y)).a = 255) := by
  constructor
  · show ((shapeOps s).foldl applyShape (maskedImg s)).size = s
    rw [applyFold_size]
    exact gradientImg_size s
  · refine applyFold_alpha (shapeOps s) (maskedImg s) _ _ (shapeOps_fill_alpha s) ?_
    exact maskVal_cases s (Int.ofNat x) (Int.ofNat y)

/-- Claim C8 witness at size 2, pixel (1, 1). -/
theorem C8_renderer_total_witness :
    (createIcon 2).size = 2 ∧
    (((createIcon 2).pixel (Int.ofNat 1) (Int.ofNat 1)).a = 0 ∨
     ((createIcon 2).pixel (Int.ofNat 1) (Int.ofNat 1)).a = 255) :=
  C8_renderer_total 2 1 1 (by decide) (by decide) (by decide)

/-- Claim C9: the renderer is deterministic — `create_icon` is modelled as a
pure function of the pixel size alone, so two invocations with equal sizes
produce identical (pixel-for-pixel equal) images. -/
theorem C9_deterministic (s1 s2 : ℕ) (h : s1 = s2) :
    createIcon s1 = createIcon s2 := by
  rw [h]

/-- Claim C9 witness: two invocations at size 8 agree. -/
theorem C9_deterministic_witness : createIcon 8 = createIcon 8 :=
  C9_deterministic 8 8 rfl

/-- Claim C1: iterating the size table in order, the pixel size of each pair
is `floor(base * scale)`; a pair whose pixel size already appeared is skipped
(first-seen wins), so exactly one file is rendered and saved per distinct
pixel size of the table.  The rendered sizes are, in order, the 19 listed
values; they are pairwise distinct, every table pair's pixel size is among
them, and each pixel size equals the floor of `base * scale`. -/
theorem C1_dedup_first_seen :
    generatedSizes sizesTable =
      [20, 40, 60, 29, 58, 87, 80, 120, 180, 76, 152, 167, 1024,
       16, 32, 64, 128, 256, 512] ∧
    (generatedSizes sizesTable).Nodup ∧
    sizesTable.all
      (fun p => decide (pixelSize p.1 p.2 ∈ generatedSizes sizesTable)) = true ∧
    sizesTable.all
      (fun p => decide (pixelSize p.1 p.2 = (⌊p.1 * (p.2 : ℚ)⌋).toNat)) = true := by
  refine ⟨by decide, by decide, by decide, by decide⟩

/-- Claim C2: every filename referenced in the manifest is `icon_{P}x{P}.png`
for some pixel size `P` that the dedup loop actually rendered and saved on the
same run. -/
theorem C2_manifest_filenames_rendered :
    contentsImages.all
      (fun e => decide (∃ p ∈ generatedSizes sizesTable,
        e.filename = iconFilename p)) = true := by
  decide

/-- Claim C3 counterexample: the claim asserts the pair `(60, 1)` (base 60 at
scale 1) is in the size table, but it is not; the table covers 60 only at
scales 2 and 3. -/
theorem C3_counterexample :
    decide (((60 : ℚ), (1 : ℕ)) ∈ sizesTable) = false := by
  decide

/-- Claim C3 as amended: the fixed ordered size table contains bases 20, 29
and 40 at scales 1-3; base 60 at scales 2-3 only; base 76 at scales 1-2 only;
base 83.5 at scale 2 only; base 1024 at scale 1 only; and bases 16, 32, 128,
256 and 512 at scales 1-2; and nothing else (25 pairs in total). -/
theorem C3_size_table_amended :
    ((20 : ℚ), (1 : ℕ)) ∈ sizesTable ∧ ((20 : ℚ), (2 : ℕ)) ∈ sizesTable ∧
    ((20 : ℚ), (3 : ℕ)) ∈ sizesTable ∧
    ((29 : ℚ), (1 : ℕ)) ∈ sizesTable ∧ ((29 : ℚ), (2 : ℕ)) ∈ sizesTable ∧
    ((29 : ℚ), (3 : ℕ)) ∈ sizesTable ∧
    ((40 : ℚ), (1 : ℕ)) ∈ sizesTable ∧ ((40 : ℚ), (2 : ℕ)) ∈ sizesTable ∧
    ((40 : ℚ), (3 : ℕ)) ∈ sizesTable ∧
    ((60 : ℚ), (2 : ℕ)) ∈ sizesTable ∧ ((60 : ℚ), (3 : ℕ)) ∈ sizesTable ∧
    ((60 : ℚ), (1 : ℕ)) ∉ sizesTable ∧
    ((76 : ℚ), (1 : ℕ)) ∈ sizesTable ∧ ((76 : ℚ), (2 : ℕ)) ∈ sizesTable ∧
    ((76 : ℚ), (3 : ℕ)) ∉ sizesTable ∧
    ((83.5 : ℚ), (2 : ℕ)) ∈ sizesTable ∧
    ((83.5 : ℚ), (1 : ℕ)) ∉ sizesTable ∧ ((83.5 : ℚ), (3 : ℕ)) ∉ sizesTable ∧
    ((1024 : ℚ), (1 : ℕ)) ∈ sizesTable ∧
    ((1024 : ℚ), (2 : ℕ)) ∉ sizesTable ∧ ((1024 : ℚ), (3 : ℕ)) ∉ sizesTable ∧
    ((16 : ℚ), (1 : ℕ)) ∈ sizesTable ∧ ((16 : ℚ), (2 : ℕ)) ∈ sizesTable ∧
    ((32 : ℚ), (1 : ℕ)) ∈ sizesTable ∧ ((32 : ℚ), (2 : ℕ)) ∈ sizesTable ∧
    ((128 : ℚ), (1 : ℕ)) ∈ sizesTable ∧ ((128 : ℚ), (2 : ℕ)) ∈ sizesTable ∧
    ((256 : ℚ), (1 : ℕ)) ∈ sizesTable ∧ ((256 : ℚ), (2 : ℕ)) ∈ sizesTable ∧
    ((512 : ℚ), (1 : ℕ)) ∈ sizesTable ∧ ((512 : ℚ), (2 : ℕ)) ∈ sizesTable ∧
    sizesTable.length = 25 := by
  repeat' apply And.intro
  all_goals decide

/-- Claim C7: the pairs `(1024, 1)` and `(512, 2)` both resolve to pixel size
1024; the dedup loop renders exactly one 1024 file; the manifest's
`ios-marketing` 1024x1024 1x entry and its `mac` 512x512 2x entry both
reference that single file `icon_1024x1024.png`. -/
theorem C7_shared_1024 :
    pixelSize 1024 1 = 1024 ∧
    pixelSize 512 2 = 1024 ∧
    (generatedSizes sizesTable).count 1024 = 1 ∧
    1024 ∈ generatedSizes sizesTable ∧
    (⟨"1024x1024", "ios-marketing", "icon_1024x1024.png", "1x"⟩ : ManifestEntry)
      ∈ contentsImages ∧
    (⟨"512x512", "mac", "icon_1024x1024.png", "2x"⟩ : ManifestEntry)
      ∈ contentsImages ∧
    iconFilename 1024 = "icon_1024x1024.png" := by
  refine ⟨by decide, by decide, by decide, by decide, by decide, by decide, by decide⟩

/-- Claim C10 counterexample: the manifest's `images` list has 28 entries,
not 30 as the claim states. -/
theorem C10_counterexample :
    contentsImages.length = 28 ∧ decide (contentsImages.length = 30) = false := by
  refine ⟨by decide, by decide⟩

/-- Claim C10 as amended (the manifest has 28 entries, not 30): every one of
the 28 hard-coded manifest entries is internally arithmetically consistent:
its size string parses as `"AxA"`, its scale string as `"Nx"`, and its
filename is `icon_{P}x{P}.png` for `P = int(A * N)`. -/
theorem C10_manifest_entries_consistent :
    contentsImages.length = 28 ∧
    contentsImages.all entryConsistent = true := by
  refine ⟨by decide, by decide⟩

end GenerateIcons
